import Mathlib

set_option maxRecDepth 100000

/-!
Shallow embedding of the Retro transcriber backend core:
the up-sot detector of src/routes/transcription.py (detect_up_sots)
and the export renderers of src/routes/export.py (generate_edl,
generate_txt, generate_markdown, and the /export/edl route guard),
together with proofs of the specification's claims about them.
-/

namespace Retro

/-- Characters on which `re.split(r'[.!?]+', text)` splits
(transcription.py line 97). -/
def isSentenceEnd (c : Char) : Bool := c = '.' || c = '!' || c = '?'

/-- Worker for `re.split(r'[.!?]+', text)`: a maximal nonempty run of
sentence-terminal punctuation is a single separator; empty pieces at the
boundaries are kept, exactly as Python's `re.split` does. -/
def splitRun : List Char → List Char → Bool → List String
  | [], acc, _ => [String.mk acc.reverse]
  | c :: cs, acc, inSep =>
    if isSentenceEnd c then
      if inSep then splitRun cs acc true
      else String.mk acc.reverse :: splitRun cs [] true
    else splitRun cs (c :: acc) false

/-- Embedding of `sentences = re.split(r'[.!?]+', text)` (transcription.py line 97). -/
def splitSentences (text : String) : List String := splitRun text.toList [] false

/-- Substring test `needle in hay` on character lists: some suffix of `hay` has `needle`
as an initial segment. -/
def hasSub : List Char → List Char → Bool
  | needle, [] => needle.isEmpty
  | needle, c :: cs => needle.isPrefixOf (c :: cs) || hasSub needle cs

/-- Python's substring test `needle in hay`. -/
def pyIn (needle hay : String) : Bool := hasSub needle.toList hay.toList

/-- One detected up-sot as built by `detect_up_sots`
(transcription.py lines 124-152): all four fields always present. -/
structure UpSot where
  timestamp : Nat
  type : String
  description : String
  confidence : ℚ
deriving DecidableEq

/-- The `question_indicators` table (transcription.py lines 108-111). -/
def questionIndicators : List String :=
  ["can you tell us", "can you walk us through", "what do you see",
   "how does", "what advice", "what makes", "how do you"]

/-- The `key_phrases` table (transcription.py lines 101-106). -/
def keyPhrases : List String :=
  ["thank you", "welcome", "fascinating", "absolutely", "unique",
   "challenge", "opportunity", "important", "key", "significant",
   "advice", "perspective", "innovative", "breakthrough", "solution",
   "problem", "ethics", "future", "looking ahead", "in conclusion"]

/-- The `topic_starters` table (transcription.py line 144). -/
def topicStarters : List String :=
  ["speaking of", "looking ahead", "moving on", "now", "finally"]

/-- The question loop of lines 122-130 fires iff some indicator occurs in
the (stripped, lower-cased) sentence. -/
def qMatch (s : String) : Bool := questionIndicators.any fun ind => pyIn ind s

/-- The key-phrase loop of lines 133-141 fires iff some phrase occurs in
the sentence and the sentence is longer than 30 characters. -/
def kMatch (s : String) : Bool :=
  keyPhrases.any fun ph => pyIn ph s && decide (s.length > 30)

/-- The topic-transition loop of lines 145-153 fires iff the sentence
starts with some starter phrase. -/
def tMatch (s : String) : Bool :=
  topicStarters.any fun st => st.toList.isPrefixOf s.toList

/-- Description text `f'Question: {sentence[:100]}...' if len(sentence) > 100 else
f'Question: {sentence}'` (and likewise for the other two tags). -/
def truncDesc (tag s : String) : String :=
  if s.length > 100 then tag ++ s.take 100 ++ "..." else tag ++ s

/-- The up-sots appended for one processed sentence, in the order the three
detection loops run: question (confidence 0.8), then key_moment (0.7),
then topic_transition (0.9) — each loop breaks after its first hit, so each
contributes at most one entry (transcription.py lines 121-153). -/
def classifySentence (ts : Nat) (s : String) : List UpSot :=
  (if qMatch s then [⟨ts, "question", truncDesc "Question: " s, 0.8⟩] else [])
    ++ (if kMatch s then [⟨ts, "key_moment", truncDesc "Key point: " s, 0.7⟩] else [])
    ++ (if tMatch s then [⟨ts, "topic_transition", truncDesc "Topic change: " s, 0.9⟩] else [])

/-- Processing of the sentence at index `i` of the split list:
`sentence = sentence.strip().lower()`, skip if shorter than 10 characters,
otherwise classify with `timestamp = i * 3`
(transcription.py lines 113-119). -/
def sentenceCandidates (i : Nat) (raw : String) : List UpSot :=
  let s := raw.trim.toLower
  if s.length < 10 then [] else classifySentence (i * 3) s

/-- Python's `enumerate` starting at `n`. -/
def pyEnum : Nat → List α → List (Nat × α)
  | _, [] => []
  | n, a :: l => (n, a) :: pyEnum (n + 1) l

/-- All candidate up-sots appended by the scan loop of
`detect_up_sots` (lines 113-153), each paired with the index of the
sentence that produced it. -/
def scanCandidates (text : String) : List (Nat × UpSot) :=
  (pyEnum 0 (splitSentences text)).flatMap fun p =>
    (sentenceCandidates p.1 p.2).map fun u => (p.1, u)

/-- The deduplication loop of lines 156-161: keep an up-sot iff its
timestamp has not been seen yet, recording seen timestamps. -/
def dedupByTimestamp : List UpSot → List Nat → List UpSot
  | [], _ => []
  | u :: rest, seen =>
    if u.timestamp ∈ seen then dedupByTimestamp rest seen
    else u :: dedupByTimestamp rest (u.timestamp :: seen)

/-- The comparison of `sorted(unique_up_sots, key=lambda x: x['timestamp'])`. -/
def upSotLE (a b : UpSot) : Bool := decide (a.timestamp ≤ b.timestamp)

/-- Embedding of `detect_up_sots` (transcription.py lines 90-163): scan, deduplicate by
timestamp, sort ascending by timestamp (Python `sorted` is a stable merge
sort, modelled by `List.mergeSort`). -/
def detect_up_sots (text : String) : List UpSot :=
  (dedupByTimestamp ((scanCandidates text).map Prod.snd) []).mergeSort upSotLE

/-! ## Export renderers (src/routes/export.py) -/

/-- Python's `int()` on a rational value: truncation toward zero. -/
def pyIntTrunc (q : ℚ) : ℤ := q.num.tdiv q.den

/-- Python's `%` on numbers: `a - b * floor(a / b)`. -/
def pyMod (a b : ℚ) : ℚ := a - b * ⌊a / b⌋

/-- Python's `f"{n:02d}"`: zero-pad to width 2 (wider values untouched). -/
def padZero2 (n : ℤ) : String :=
  if 0 ≤ n ∧ n < 10 then "0" ++ toString n else toString n

/-- Python's `f"{n:03d}"`: zero-pad to width 3. -/
def padZero3 (n : Nat) : String :=
  if n < 10 then "00" ++ toString n
  else if n < 100 then "0" ++ toString n
  else toString n

/-- Python's `f"{n:2d}"`: space-pad to width 2. -/
def padSpace2 (n : Nat) : String :=
  if n < 10 then " " ++ toString n else toString n

/-- The timecode computation of generate_edl (export.py lines 137-143):
`hours = int(timestamp // 3600)`, `minutes = int((timestamp % 3600) // 60)`,
`seconds = int(timestamp % 60)`, `frames = int((timestamp % 1) * 30)`,
each rendered with `f"{...:02d}"` and joined by colons. -/
def toSMPTE (t : ℚ) : String :=
  padZero2 ⌊t / 3600⌋ ++ ":" ++ padZero2 ⌊pyMod t 3600 / 60⌋ ++ ":"
    ++ padZero2 (pyIntTrunc (pyMod t 60)) ++ ":"
    ++ padZero2 (pyIntTrunc (pyMod t 1 * 30))

/-- The MM:SS computation of generate_txt (export.py lines 188-191):
`minutes = int(timestamp // 60)`, `seconds = int(timestamp % 60)`. -/
def toMinSec (t : ℚ) : String :=
  padZero2 ⌊t / 60⌋ ++ ":" ++ padZero2 (pyIntTrunc (pyMod t 60))

/-- An up-sot as the export routes receive it from JSON: any of the four
fields may be absent, and every renderer reads them through
`up_sot.get(field, default)`. -/
structure UpSotJson where
  timestamp : Option ℚ
  type : Option String
  description : Option String
  confidence : Option ℚ
deriving DecidableEq

/-- Embedding of `up_sot.get('timestamp', 0)`. -/
def tsOf (u : UpSotJson) : ℚ := u.timestamp.getD 0

/-- Embedding of `up_sot.get('type', 'key_moment')`. -/
def typeOf (u : UpSotJson) : String := u.type.getD "key_moment"

/-- Embedding of `up_sot.get('description', 'Key moment')`. -/
def descOf (u : UpSotJson) : String := u.description.getD "Key moment"

/-- Embedding of `up_sot.get('confidence', 0.0)`. -/
def confOf (u : UpSotJson) : ℚ := u.confidence.getD 0

/-- Embedding of `int(confidence * 100)` as rendered before the percent sign. -/
def confPct (c : ℚ) : ℤ := pyIntTrunc (c * 100)

/-- Embedding of `sorted(up_sots, key=lambda x: x.get('timestamp', 0))`, present
verbatim in all three renderers (export.py lines 129, 180, 233); Python's
`sorted` is a stable merge sort, modelled by `List.mergeSort`. -/
def sortUpSots (l : List UpSotJson) : List UpSotJson :=
  l.mergeSort fun a b => decide (tsOf a ≤ tsOf b)

/-- The lines generate_edl appends for the `i`-th (1-based) sorted up-sot
(export.py lines 131-151). -/
def edlEntry (i : Nat) (u : UpSotJson) : List String :=
  [padZero3 i ++ "  001      V     C        " ++ toSMPTE (tsOf u) ++ " "
     ++ toSMPTE (tsOf u) ++ " " ++ toSMPTE (tsOf u) ++ " " ++ toSMPTE (tsOf u),
   "* FROM CLIP NAME: " ++ (typeOf u).toUpper,
   "* COMMENT: " ++ descOf u,
   "* CONFIDENCE: " ++ toString (confPct (confOf u)) ++ "%",
   ""]

/-- Embedding of `generate_edl` (export.py lines 116-153). -/
def generate_edl (up_sots : List UpSotJson) (project_name : String) : String :=
  String.intercalate "\n"
    (["TITLE: " ++ project_name, "FCM: NON-DROP FRAME", ""]
      ++ (pyEnum 1 (sortUpSots up_sots)).flatMap fun p => edlEntry p.1 p.2)

/-- Banner strings `"=" * 80` and `"-" * 40`. -/
def repeatChar (n : Nat) (c : Char) : String := String.mk (List.replicate n c)

/-- The lines generate_txt appends for the `i`-th (1-based) sorted up-sot
(export.py lines 182-197); the confidence line appears only when
`confidence > 0`. -/
def txtEntry (i : Nat) (u : UpSotJson) : List String :=
  [padSpace2 i ++ ". [" ++ toMinSec (tsOf u) ++ "] " ++ (typeOf u).toUpper,
   "    " ++ descOf u]
    ++ (if 0 < confOf u then
          ["    Confidence: " ++ toString (confPct (confOf u)) ++ "%"] else [])
    ++ [""]

/-- Embedding of `generate_txt` (export.py lines 155-204), with the
`datetime.now().strftime(...)` string passed in as `now`. -/
def generate_txt (now transcription : String) (up_sots : List UpSotJson)
    (project_name : String) : String :=
  String.intercalate "\n"
    ([repeatChar 80 '=',
      "INTERVIEW TRANSCRIPT: " ++ project_name,
      "Generated: " ++ now,
      repeatChar 80 '=', "",
      "FULL TRANSCRIPTION:", repeatChar 40 '-', transcription, "", ""]
      ++ (if up_sots.isEmpty then [] else
            ["KEY MOMENTS (UP-SOTS):", repeatChar 40 '-']
              ++ (pyEnum 1 (sortUpSots up_sots)).flatMap fun p => txtEntry p.1 p.2)
      ++ [repeatChar 80 '=',
          "Generated by Retro Professional Transcribe Tool",
          repeatChar 80 '='])

/-- The `type_color` dictionary lookup with default (export.py lines
247-251); the file literally stores the four mojibake glyph strings, which
the escape sequences below reproduce character for character. -/
def typeColor (t : String) : String :=
  if t = "question" then "ðŸ”µ"
  else if t = "key_moment" then "ðŸŸ¢"
  else if t = "topic_transition" then "ðŸŸ£"
  else "âšª"

/-- Python's `str.title()`: the first cased character of each run of cased
characters is upper-cased, the rest lower-cased. -/
def pyTitleAux : List Char → Bool → List Char
  | [], _ => []
  | c :: cs, prevCased =>
    (if c.isAlpha then (if prevCased then c.toLower else c.toUpper) else c)
      :: pyTitleAux cs c.isAlpha

/-- Python's `str.title()` on a string. -/
def pyTitle (s : String) : String := String.mk (pyTitleAux s.toList false)

/-- The lines generate_markdown appends for the `i`-th (1-based) sorted
up-sot (export.py lines 235-261); the heading is
`f"### {i}. [{time_str}] {type_color} {up_sot_type.replace('_',' ').title()}"`. -/
def mdEntry (i : Nat) (u : UpSotJson) : List String :=
  ["### " ++ toString i ++ ". [" ++ toMinSec (tsOf u) ++ "] "
     ++ typeColor (typeOf u) ++ " " ++ pyTitle ((typeOf u).replace "_" " "),
   "",
   "**Description:** " ++ descOf u,
   ""]
    ++ (if 0 < confOf u then
          ["**Confidence:** " ++ toString (confPct (confOf u)) ++ "%", ""] else [])
    ++ ["---", ""]

/-- Embedding of `generate_markdown` (export.py lines 206-270), with both
`datetime.now().strftime(...)` strings passed in as `now`. -/
def generate_markdown (now transcription : String) (up_sots : List UpSotJson)
    (project_name : String) : String :=
  String.intercalate "\n"
    (["# Interview Transcript: " ++ project_name, "",
      "**Generated:** " ++ now, "", "---", "",
      "## Full Transcription", "", transcription, "", "---", ""]
      ++ (if up_sots.isEmpty then [] else
            ["## Key Moments (Up-Sots)", ""]
              ++ (pyEnum 1 (sortUpSots up_sots)).flatMap fun p => mdEntry p.1 p.2)
      ++ ["## Document Information", "",
          "- **Tool:** Retro Professional Transcribe Tool",
          "- **Format:** Professional Interview Transcript",
          "- **Export Date:** " ++ now])

/-- The decision logic of the `/export/edl` route (export.py lines 16-25):
an empty `up_sots` list is rejected with the validation error before any
rendering happens; otherwise the EDL document is produced. -/
def export_edl_route (up_sots : List UpSotJson) (project_name : String) :
    Except String String :=
  if up_sots.isEmpty then Except.error "No up-sots provided"
  else Except.ok (generate_edl up_sots project_name)

/-- The default-substituted form of an up-sot record: every field made
present, holding exactly the value the renderers' `get` calls read. -/
def fillDefaults (u : UpSotJson) : UpSotJson :=
  ⟨some (tsOf u), some (typeOf u), some (descOf u), some (confOf u)⟩

/-- The scan of `detect_up_sots` viewed as one group of candidates per
sentence, each group labelled with the synthetic timestamp of its
sentence. -/
def groupsOf (text : String) : List (Nat × List UpSot) :=
  (pyEnum 0 (splitSentences text)).map fun p =>
    (p.1 * 3, sentenceCandidates p.1 p.2)

/-- The SMPTE conversion as the specification words it: hours =
floor(t/3600), minutes = floor((t mod 3600)/60), seconds = floor(t mod 60),
frames = floor(fractional_part(t) * 30), all zero-padded to width 2.
This definition follows the spec sentence; `toSMPTE` follows the code. -/
def smpteSpecFormula (t : ℚ) : String :=
  padZero2 ⌊t / 3600⌋ ++ ":" ++ padZero2 ⌊pyMod t 3600 / 60⌋ ++ ":"
    ++ padZero2 ⌊pyMod t 60⌋ ++ ":" ++ padZero2 ⌊Int.fract t * 30⌋

/-- The MM:SS conversion as the specification words it: minutes =
floor(t/60), seconds = floor(t mod 60), zero-padded to width 2.
This definition follows the spec sentence; `toMinSec` follows the code. -/
def minSecSpecFormula (t : ℚ) : String :=
  padZero2 ⌊t / 60⌋ ++ ":" ++ padZero2 ⌊pyMod t 60⌋

/-! ## Structural lemmas about the scan -/

theorem pyEnum_getElem? (n : Nat) (l : List α) (i : Nat) :
    (pyEnum n l)[i]? = l[i]?.map fun a => (n + i, a) := by
  induction l generalizing n i with
  | nil => simp [pyEnum]
  | cons a l ih =>
    cases i with
    | zero => simp [pyEnum]
    | succ j =>
      have h : n + 1 + j = n + (j + 1) := by omega
      simp [pyEnum, ih (n + 1) j, h]

theorem fst_ge_of_mem_pyEnum {p : Nat × α} :
    ∀ {n : Nat} {l : List α}, p ∈ pyEnum n l → n ≤ p.1 := by
  intro n l
  induction l generalizing n with
  | nil => simp [pyEnum]
  | cons a l ih =>
    intro h
    rcases List.mem_cons.1 h with rfl | h
    · exact le_refl _
    · exact Nat.le_of_succ_le (ih h)

theorem getElem?_of_mem_pyEnum {p : Nat × α} :
    ∀ {n : Nat} {l : List α}, p ∈ pyEnum n l → n ≤ p.1 ∧ l[p.1 - n]? = some p.2 := by
  intro n l
  induction l generalizing n with
  | nil => simp [pyEnum]
  | cons a l ih =>
    intro h
    rcases List.mem_cons.1 h with rfl | h
    · simp
    · obtain ⟨h1, h2⟩ := ih h
      refine ⟨by omega, ?_⟩
      have he : p.1 - n = (p.1 - (n + 1)) + 1 := by omega
      rw [he]
      simpa using h2

theorem pyEnum_pairwise_fst_lt (n : Nat) (l : List α) :
    List.Pairwise (fun p q => p.1 < q.1) (pyEnum n l) := by
  induction l generalizing n with
  | nil => exact List.Pairwise.nil
  | cons a l ih =>
    refine List.Pairwise.cons ?_ (ih (n + 1))
    intro q hq
    have := fst_ge_of_mem_pyEnum hq
    simpa using by omega

theorem timestamp_of_mem_classify {u : UpSot} {ts : Nat} {s : String}
    (h : u ∈ classifySentence ts s) : u.timestamp = ts := by
  simp only [classifySentence, List.mem_append] at h
  rcases h with (h | h) | h <;> split at h <;> simp_all

theorem mem_sentenceCandidates {u : UpSot} {i : Nat} {raw : String}
    (h : u ∈ sentenceCandidates i raw) :
    u.timestamp = i * 3 ∧ 10 ≤ (raw.trim.toLower).length := by
  simp only [sentenceCandidates] at h
  split at h
  · simp at h
  · exact ⟨timestamp_of_mem_classify h, by omega⟩

/-! ## Lemmas about the deduplication loop -/

theorem dedup_congr_seen :
    ∀ (l : List UpSot) (s₁ s₂ : List Nat),
      (∀ u ∈ l, (u.timestamp ∈ s₁ ↔ u.timestamp ∈ s₂)) →
      dedupByTimestamp l s₁ = dedupByTimestamp l s₂ := by
  intro l
  induction l with
  | nil => intro _ _ _; rfl
  | cons u l ih =>
    intro s₁ s₂ h
    simp only [dedupByTimestamp]
    by_cases hm : u.timestamp ∈ s₁
    · rw [if_pos hm, if_pos ((h u (by simp)).1 hm)]
      exact ih _ _ fun v hv => h v (List.mem_cons_of_mem _ hv)
    · rw [if_neg hm, if_neg fun c => hm ((h u (by simp)).2 c)]
      congr 1
      refine ih _ _ fun v hv => ?_
      simp only [List.mem_cons]
      rw [h v (List.mem_cons_of_mem _ hv)]

theorem dedup_drop_group {t : Nat} :
    ∀ (g rest : List UpSot) (seen : List Nat),
      (∀ u ∈ g, u.timestamp = t) → t ∈ seen →
      dedupByTimestamp (g ++ rest) seen = dedupByTimestamp rest seen := by
  intro g
  induction g with
  | nil => intro rest seen _ _; rfl
  | cons u g ih =>
    intro rest seen hg ht
    have hm : u.timestamp ∈ seen := by rw [hg u (by simp)]; exact ht
    simp only [List.cons_append, dedupByTimestamp, if_pos hm]
    exact ih rest seen (fun v hv => hg v (List.mem_cons_of_mem _ hv)) ht

theorem dedup_flat :
    ∀ (gs : List (Nat × List UpSot)) (seen : List Nat),
      (∀ p ∈ gs, ∀ u ∈ p.2, u.timestamp = p.1) →
      ((gs.map Prod.fst).Nodup) →
      (∀ p ∈ gs, p.1 ∉ seen) →
      dedupByTimestamp (gs.flatMap Prod.snd) seen
        = gs.filterMap fun p => p.2.head? := by
  intro gs
  induction gs with
  | nil => intro seen _ _ _; rfl
  | cons p gs ih =>
    intro seen hhom hnd hseen
    obtain ⟨t, g⟩ := p
    have hnd' : (gs.map Prod.fst).Nodup := (List.nodup_cons.1 hnd).2
    have htn : t ∉ gs.map Prod.fst := (List.nodup_cons.1 hnd).1
    have hne : ∀ v ∈ gs.flatMap Prod.snd, v.timestamp ≠ t := by
      intro v hv
      obtain ⟨q, hq, hvq⟩ := List.mem_flatMap.1 hv
      rw [hhom q (List.mem_cons_of_mem _ hq) v hvq]
      intro hqt
      exact htn (List.mem_map.2 ⟨q, hq, hqt⟩)
    cases g with
    | nil =>
      simp only [List.flatMap_cons, List.filterMap_cons]
      simpa using ih seen (fun q hq => hhom q (List.mem_cons_of_mem _ hq)) hnd'
        (fun q hq => hseen q (List.mem_cons_of_mem _ hq))
    | cons u g' =>
      have hu : u.timestamp = t := hhom (t, u :: g') (by simp) u (by simp)
      have hts : u.timestamp ∉ seen := by
        rw [hu]; exact hseen (t, u :: g') (by simp)
      show (if u.timestamp ∈ seen then
              dedupByTimestamp (g' ++ gs.flatMap Prod.snd) seen
            else u :: dedupByTimestamp (g' ++ gs.flatMap Prod.snd)
              (u.timestamp :: seen))
          = u :: gs.filterMap fun p => p.2.head?
      rw [if_neg hts]
      have hg' : ∀ v ∈ g', v.timestamp = t := fun v hv =>
        hhom (t, u :: g') (by simp) v (List.mem_cons_of_mem _ hv)
      rw [hu, dedup_drop_group g' (gs.flatMap Prod.snd) (t :: seen) hg' (by simp)]
      rw [dedup_congr_seen (gs.flatMap Prod.snd) (t :: seen) seen ?_]
      · rw [ih seen (fun q hq => hhom q (List.mem_cons_of_mem _ hq)) hnd'
          (fun q hq => hseen q (List.mem_cons_of_mem _ hq))]
      · intro v hv
        simp only [List.mem_cons]
        constructor
        · rintro (h | h)
          · exact absurd h (hne v hv)
          · exact h
        · exact Or.inr

/-! ## A normal form for the detector -/

theorem scan_map_snd (text : String) :
    (scanCandidates text).map Prod.snd = (groupsOf text).flatMap Prod.snd := by
  unfold scanCandidates groupsOf
  rw [List.map_flatMap, List.flatMap_map]
  simp [Function.comp, List.map_map]

theorem groupsOf_hom (text : String) :
    ∀ p ∈ groupsOf text, ∀ u ∈ p.2, u.timestamp = p.1 := by
  intro p hp u hu
  obtain ⟨q, _, rfl⟩ := List.mem_map.1 hp
  exact (mem_sentenceCandidates hu).1

theorem groupsOf_pairwise (text : String) :
    List.Pairwise (fun p q => p.1 < q.1) (groupsOf text) := by
  refine List.Pairwise.map _ ?_ (pyEnum_pairwise_fst_lt 0 (splitSentences text))
  intro a b h
  simpa using by omega

theorem groupsOf_fst_nodup (text : String) :
    ((groupsOf text).map Prod.fst).Nodup := by
  rw [List.Nodup, List.pairwise_map]
  exact (groupsOf_pairwise text).imp fun h => by omega

theorem heads_pairwise (text : String) :
    List.Pairwise (fun u v : UpSot => u.timestamp < v.timestamp)
      ((groupsOf text).filterMap fun p => p.2.head?) := by
  rw [List.pairwise_filterMap]
  refine List.Pairwise.imp_of_mem ?_ (groupsOf_pairwise text)
  intro p q hpm hqm hlt u hu v hv
  rw [groupsOf_hom text p hpm u (List.mem_of_mem_head? hu),
    groupsOf_hom text q hqm v (List.mem_of_mem_head? hv)]
  exact hlt

theorem detect_norm (text : String) :
    detect_up_sots text = (groupsOf text).filterMap fun p => p.2.head? := by
  unfold detect_up_sots
  rw [scan_map_snd,
    dedup_flat (groupsOf text) [] (groupsOf_hom text) (groupsOf_fst_nodup text)
      (by simp)]
  refine List.mergeSort_of_sorted ((heads_pairwise text).imp ?_)
  intro a b h
  simpa [upSotLE] using le_of_lt h

theorem detect_pairwise_lt (text : String) :
    List.Pairwise (fun u v : UpSot => u.timestamp < v.timestamp)
      (detect_up_sots text) := by
  rw [detect_norm]
  exact heads_pairwise text

theorem detect_ts_nodup (text : String) :
    ((detect_up_sots text).map UpSot.timestamp).Nodup := by
  rw [List.Nodup, List.pairwise_map]
  exact (detect_pairwise_lt text).imp fun h => by omega

theorem head_classify (ts : Nat) (s : String) (u : UpSot)
    (hu : (classifySentence ts s).head? = some u) :
    (qMatch s = true → u = ⟨ts, "question", truncDesc "Question: " s, 0.8⟩)
      ∧ (qMatch s = false → kMatch s = true →
          u = ⟨ts, "key_moment", truncDesc "Key point: " s, 0.7⟩)
      ∧ (qMatch s = false → kMatch s = false →
          u = ⟨ts, "topic_transition", truncDesc "Topic change: " s, 0.9⟩) := by
  unfold classifySentence at hu
  rcases hq : qMatch s <;> rcases hk : kMatch s <;> rcases ht : tMatch s <;>
    simp [hq, hk, ht] at hu ⊢ <;> simp [hu]

/-- C2: for every transcript text, the detector's output is sorted
ascending by timestamp and no two of its elements share a timestamp. -/
theorem c2_sorted_unique_timestamps (text : String) :
    List.Sorted (fun a b : UpSot => a.timestamp ≤ b.timestamp)
        (detect_up_sots text)
      ∧ ((detect_up_sots text).map UpSot.timestamp).Nodup :=
  ⟨(detect_pairwise_lt text).imp fun h => le_of_lt h, detect_ts_nodup text⟩

/-- C1: for every sentence of the split list, the detector keeps at most
one up-sot at that sentence's timestamp, namely the head of the
candidate list built in the fixed order question (confidence 0.8), then
key_moment (0.7), then topic_transition (0.9): a question match always
wins, a key-phrase match wins over a mere topic-transition match. -/
theorem c1_first_rule_wins (text : String) (i : Nat) (s : String) (u : UpSot)
    (hs : (splitSentences text)[i]? = some s)
    (hu : (sentenceCandidates i s).head? = some u) :
    u ∈ detect_up_sots text
      ∧ (∀ v ∈ detect_up_sots text, v.timestamp = u.timestamp → v = u)
      ∧ (qMatch (s.trim.toLower) = true →
          u.type = "question" ∧ u.confidence = 0.8)
      ∧ (qMatch (s.trim.toLower) = false → kMatch (s.trim.toLower) = true →
          u.type = "key_moment" ∧ u.confidence = 0.7)
      ∧ (qMatch (s.trim.toLower) = false → kMatch (s.trim.toLower) = false →
          u.type = "topic_transition" ∧ u.confidence = 0.9) := by
  have hmem : u ∈ detect_up_sots text := by
    rw [detect_norm]
    refine List.mem_filterMap.2 ⟨(i * 3, sentenceCandidates i s), ?_, hu⟩
    have hg : (groupsOf text)[i]? = some (i * 3, sentenceCandidates i s) := by
      unfold groupsOf
      rw [List.getElem?_map, pyEnum_getElem?]
      simp [hs]
    obtain ⟨hlt, helem⟩ := List.getElem?_eq_some_iff.1 hg
    exact helem ▸ List.getElem_mem hlt
  have hclass := by
    simp only [sentenceCandidates] at hu
    split at hu
    · simp at hu
    · exact head_classify _ _ _ hu
  refine ⟨hmem,
    fun v hv hvt => List.inj_on_of_nodup_map (detect_ts_nodup text) hv hmem hvt,
    ?_, ?_, ?_⟩
  · intro h; rw [hclass.1 h]; exact ⟨rfl, rfl⟩
  · intro h1 h2; rw [hclass.2.1 h1 h2]; exact ⟨rfl, rfl⟩
  · intro h1 h2; rw [hclass.2.2 h1 h2]; exact ⟨rfl, rfl⟩

/-- C3: every emitted up-sot comes from a split unit whose processed
(stripped, lower-cased) form has at least 10 characters, and its timestamp
is 3 times that unit's index in the full split list. -/
theorem c3_min_length_and_synthetic_clock (text : String) (u : UpSot)
    (hu : u ∈ detect_up_sots text) :
    ∃ i s, (splitSentences text)[i]? = some s
      ∧ 10 ≤ (s.trim.toLower).length ∧ u.timestamp = 3 * i := by
  rw [detect_norm] at hu
  obtain ⟨p, hp, hph⟩ := List.mem_filterMap.1 hu
  obtain ⟨q, hq, rfl⟩ := List.mem_map.1 hp
  obtain ⟨-, hqe⟩ := getElem?_of_mem_pyEnum hq
  simp only [Nat.sub_zero] at hqe
  obtain ⟨hts, hlen⟩ := mem_sentenceCandidates (List.mem_of_mem_head? hph)
  exact ⟨q.1, q.2, hqe, hlen, by omega⟩

/-- C9: every candidate produced by the scan loop carries the timestamp
3 × (index of its sentence), so candidates from different sentences never
share a timestamp: the duplicate-timestamp drop can only discard further
classifications of the same sentence. -/
theorem c9_timestamps_separate_sentences (text : String) :
    (∀ p ∈ scanCandidates text, p.2.timestamp = 3 * p.1)
      ∧ ∀ p ∈ scanCandidates text, ∀ q ∈ scanCandidates text,
          p.2.timestamp = q.2.timestamp → p.1 = q.1 := by
  have h1 : ∀ p ∈ scanCandidates text, p.2.timestamp = 3 * p.1 := by
    intro p hp
    simp only [scanCandidates] at hp
    obtain ⟨q, _, hpq⟩ := List.mem_flatMap.1 hp
    obtain ⟨u, hu, rfl⟩ := List.mem_map.1 hpq
    have := (mem_sentenceCandidates hu).1
    simpa using by omega
  refine ⟨h1, fun p hp q hq hts => ?_⟩
  have hp1 := h1 p hp
  have hq1 := h1 q hq
  omega

/-- C7: whenever the split list has the given interview question at index
3, the detector emits a question up-sot at timestamp 9 with confidence 0.8
whose description starts with "Question: can you tell us". -/
theorem c7_question_sentence_detected (text : String)
    (hs : (splitSentences text)[3]?
      = some "Can you tell us about your background and how you got started in the tech industry") :
    ∃ u ∈ detect_up_sots text,
      u.timestamp = 9 ∧ u.type = "question" ∧ u.confidence = 0.8
        ∧ ("Question: can you tell us".toList.isPrefixOf
            u.description.toList) = true := by
  have hu : (sentenceCandidates 3
        "Can you tell us about your background and how you got started in the tech industry").head?
      = some ⟨9, "question",
          "Question: can you tell us about your background and how you got started in the tech industry",
          0.8⟩ := by
    with_unfolding_all rfl
  refine ⟨⟨9, "question",
      "Question: can you tell us about your background and how you got started in the tech industry",
      0.8⟩, ?_, rfl, rfl, rfl, by with_unfolding_all rfl⟩
  rw [detect_norm]
  refine List.mem_filterMap.2
    ⟨(3 * 3, sentenceCandidates 3
        "Can you tell us about your background and how you got started in the tech industry"),
      ?_, hu⟩
  have hg : (groupsOf text)[3]? = some (3 * 3, sentenceCandidates 3
      "Can you tell us about your background and how you got started in the tech industry") := by
    unfold groupsOf
    rw [List.getElem?_map, pyEnum_getElem?]
    simp [hs]
  obtain ⟨hlt, helem⟩ := List.getElem?_eq_some_iff.1 hg
  exact helem ▸ List.getElem_mem hlt

theorem c1_witness :
    (splitSentences "Speaking of budgets, how does this work?")[0]?
        = some "Speaking of budgets, how does this work"
      ∧ (sentenceCandidates 0 "Speaking of budgets, how does this work").head?
        = some ⟨0, "question", "Question: speaking of budgets, how does this work", 0.8⟩
      ∧ ((⟨0, "question", "Question: speaking of budgets, how does this work", 0.8⟩ : UpSot)
            ∈ detect_up_sots "Speaking of budgets, how does this work?"
          ∧ (∀ v ∈ detect_up_sots "Speaking of budgets, how does this work?",
              v.timestamp = (⟨0, "question",
                  "Question: speaking of budgets, how does this work", 0.8⟩ : UpSot).timestamp →
                v = ⟨0, "question", "Question: speaking of budgets, how does this work", 0.8⟩)
          ∧ (qMatch ("Speaking of budgets, how does this work".trim.toLower) = true →
              (⟨0, "question", "Question: speaking of budgets, how does this work", 0.8⟩ : UpSot).type
                  = "question"
                ∧ (⟨0, "question", "Question: speaking of budgets, how does this work", 0.8⟩ : UpSot).confidence
                  = 0.8)
          ∧ (qMatch ("Speaking of budgets, how does this work".trim.toLower) = false →
              kMatch ("Speaking of budgets, how does this work".trim.toLower) = true →
              (⟨0, "question", "Question: speaking of budgets, how does this work", 0.8⟩ : UpSot).type
                  = "key_moment"
                ∧ (⟨0, "question", "Question: speaking of budgets, how does this work", 0.8⟩ : UpSot).confidence
                  = 0.7)
          ∧ (qMatch ("Speaking of budgets, how does this work".trim.toLower) = false →
              kMatch ("Speaking of budgets, how does this work".trim.toLower) = false →
              (⟨0, "question", "Question: speaking of budgets, how does this work", 0.8⟩ : UpSot).type
                  = "topic_transition"
                ∧ (⟨0, "question", "Question: speaking of budgets, how does this work", 0.8⟩ : UpSot).confidence
                  = 0.9)) :=
  ⟨by with_unfolding_all rfl, by with_unfolding_all rfl,
    c1_first_rule_wins "Speaking of budgets, how does this work?" 0
      "Speaking of budgets, how does this work"
      ⟨0, "question", "Question: speaking of budgets, how does this work", 0.8⟩
      (by with_unfolding_all rfl) (by with_unfolding_all rfl)⟩

theorem c3_witness :
    (⟨0, "question", "Question: speaking of budgets, how does this work", 0.8⟩ : UpSot)
        ∈ detect_up_sots "Speaking of budgets, how does this work?"
      ∧ ∃ i s,
          (splitSentences "Speaking of budgets, how does this work?")[i]? = some s
            ∧ 10 ≤ (s.trim.toLower).length
            ∧ (⟨0, "question", "Question: speaking of budgets, how does this work",
                0.8⟩ : UpSot).timestamp = 3 * i := by
  have hmem : (⟨0, "question", "Question: speaking of budgets, how does this work",
      0.8⟩ : UpSot) ∈ detect_up_sots "Speaking of budgets, how does this work?" := by
    rw [detect_norm]
    have h : (groupsOf "Speaking of budgets, how does this work?").filterMap
          (fun p => p.2.head?)
        = [⟨0, "question", "Question: speaking of budgets, how does this work", 0.8⟩] := by
      with_unfolding_all rfl
    rw [h]
    exact List.mem_singleton.2 rfl
  exact ⟨hmem, c3_min_length_and_synthetic_clock _ _ hmem⟩

theorem c7_witness :
    (splitSentences "aaaaaaaaaaa.bbbbbbbbbbbb.cccccccccccc.Can you tell us about your background and how you got started in the tech industry")[3]?
        = some "Can you tell us about your background and how you got started in the tech industry"
      ∧ ∃ u ∈ detect_up_sots "aaaaaaaaaaa.bbbbbbbbbbbb.cccccccccccc.Can you tell us about your background and how you got started in the tech industry",
          u.timestamp = 9 ∧ u.type = "question" ∧ u.confidence = 0.8
            ∧ ("Question: can you tell us".toList.isPrefixOf
                u.description.toList) = true :=
  ⟨by with_unfolding_all rfl,
    c7_question_sentence_detected
      "aaaaaaaaaaa.bbbbbbbbbbbb.cccccccccccc.Can you tell us about your background and how you got started in the tech industry"
      (by with_unfolding_all rfl)⟩

theorem c9_witness :
    (0, (⟨0, "question", "Question: speaking of budgets, how does this work",
        0.8⟩ : UpSot)) ∈ scanCandidates "Speaking of budgets, how does this work?"
      ∧ (0, (⟨0, "topic_transition",
          "Topic change: speaking of budgets, how does this work",
          0.9⟩ : UpSot)) ∈ scanCandidates "Speaking of budgets, how does this work?"
      ∧ (⟨0, "question", "Question: speaking of budgets, how does this work",
          0.8⟩ : UpSot).timestamp = 3 * 0
      ∧ (0 : Nat) = 0 := by
  have hlist : scanCandidates "Speaking of budgets, how does this work?"
      = [(0, ⟨0, "question", "Question: speaking of budgets, how does this work", 0.8⟩),
         (0, ⟨0, "topic_transition",
            "Topic change: speaking of budgets, how does this work", 0.9⟩)] := by
    with_unfolding_all rfl
  have h1 : (0, (⟨0, "question", "Question: speaking of budgets, how does this work",
      0.8⟩ : UpSot)) ∈ scanCandidates "Speaking of budgets, how does this work?" := by
    rw [hlist]; simp
  have h2 : (0, (⟨0, "topic_transition",
      "Topic change: speaking of budgets, how does this work",
      0.9⟩ : UpSot)) ∈ scanCandidates "Speaking of budgets, how does this work?" := by
    rw [hlist]; simp
  exact ⟨h1, h2,
    (c9_timestamps_separate_sentences "Speaking of budgets, how does this work?").1 _ h1,
    (c9_timestamps_separate_sentences "Speaking of budgets, how does this work?").2 _ h1 _ h2 rfl⟩

/-! ## Timecode arithmetic -/

theorem pyMod_nonneg (a : ℚ) {b : ℚ} (hb : 0 < b) : 0 ≤ pyMod a b := by
  rw [pyMod, sub_nonneg, mul_comm]
  exact (le_div_iff₀ hb).1 (Int.floor_le _)

theorem pyIntTrunc_eq_floor {q : ℚ} (h : 0 ≤ q) : pyIntTrunc q = ⌊q⌋ := by
  rw [pyIntTrunc, Int.tdiv_eq_ediv (Rat.num_nonneg.2 h) (Int.natCast_nonneg _)]
  exact Rat.floor_def.symm

theorem pyMod_one (t : ℚ) : pyMod t 1 = Int.fract t := by
  rw [pyMod, Int.fract, div_one, one_mul]

/-- C6: the SMPTE and MM:SS conversions compute exactly the floor-based,
zero-padded fields the spec describes (frames truncated, never rounded),
and on 90.5 seconds produce "00:01:30:15" and "01:30". -/
theorem c6_timecode_formulas :
    (∀ t : ℚ, 0 ≤ t →
        toSMPTE t = smpteSpecFormula t ∧ toMinSec t = minSecSpecFormula t)
      ∧ toSMPTE (181 / 2) = "00:01:30:15"
      ∧ toMinSec (181 / 2) = "01:30" := by
  refine ⟨fun t ht => ⟨?_, ?_⟩, by with_unfolding_all rfl,
    by with_unfolding_all rfl⟩
  · rw [toSMPTE, smpteSpecFormula,
      pyIntTrunc_eq_floor (pyMod_nonneg t (by norm_num)),
      pyIntTrunc_eq_floor
        (mul_nonneg (pyMod_nonneg t (by norm_num)) (by norm_num)),
      pyMod_one]
  · rw [toMinSec, minSecSpecFormula,
      pyIntTrunc_eq_floor (pyMod_nonneg t (by norm_num))]

theorem c6_witness :
    (0 : ℚ) ≤ 181 / 2
      ∧ toSMPTE (181 / 2) = smpteSpecFormula (181 / 2)
      ∧ toMinSec (181 / 2) = minSecSpecFormula (181 / 2) :=
  ⟨by norm_num, (c6_timecode_formulas.1 (181 / 2) (by norm_num)).1,
    (c6_timecode_formulas.1 (181 / 2) (by norm_num)).2⟩

/-- C5: the EDL export rejects an empty up-sot list with the validation
error, and on a non-empty list returns the rendered document instead of
that error. -/
theorem c5_empty_edl_rejected (up_sots : List UpSotJson)
    (project_name : String) :
    (up_sots = [] →
        export_edl_route up_sots project_name
          = Except.error "No up-sots provided")
      ∧ (up_sots ≠ [] →
        export_edl_route up_sots project_name
          = Except.ok (generate_edl up_sots project_name)) := by
  constructor
  · rintro rfl; rfl
  · intro h
    cases up_sots with
    | nil => exact absurd rfl h
    | cons a l => rfl

theorem c5_witness :
    export_edl_route [] "Interview" = Except.error "No up-sots provided"
      ∧ (([⟨some 0, some "key_moment", some "x", some 0.9⟩] :
            List UpSotJson) ≠ [])
      ∧ export_edl_route [⟨some 0, some "key_moment", some "x", some 0.9⟩]
            "Interview"
          = Except.ok (generate_edl
              [⟨some 0, some "key_moment", some "x", some 0.9⟩] "Interview") :=
  ⟨(c5_empty_edl_rejected [] "Interview").1 rfl, by simp,
    (c5_empty_edl_rejected [⟨some 0, some "key_moment", some "x", some 0.9⟩]
      "Interview").2 (by simp)⟩

/-- C8: an up-sot whose type is none of the three known ones gets the
default glyph in its markdown heading, with the type label
underscore-replaced and title-cased. -/
theorem c8_unknown_type_default_glyph (u : UpSotJson) (i : Nat)
    (h1 : typeOf u ≠ "question") (h2 : typeOf u ≠ "key_moment")
    (h3 : typeOf u ≠ "topic_transition") :
    typeColor (typeOf u) = "âšª"
      ∧ (mdEntry i u).head?
        = some ("### " ++ toString i ++ ". [" ++ toMinSec (tsOf u) ++ "] "
            ++ "âšª" ++ " " ++ pyTitle ((typeOf u).replace "_" " ")) := by
  have hc : typeColor (typeOf u) = "âšª" := by
    rw [typeColor, if_neg h1, if_neg h2, if_neg h3]
  refine ⟨hc, ?_⟩
  simp [mdEntry, hc]

theorem c8_witness :
    typeOf ⟨none, some "my_type", none, none⟩ ≠ "question"
      ∧ typeOf ⟨none, some "my_type", none, none⟩ ≠ "key_moment"
      ∧ typeOf ⟨none, some "my_type", none, none⟩ ≠ "topic_transition"
      ∧ (typeColor (typeOf ⟨none, some "my_type", none, none⟩) = "âšª"
          ∧ (mdEntry 1 ⟨none, some "my_type", none, none⟩).head?
            = some ("### " ++ toString 1 ++ ". ["
                ++ toMinSec (tsOf ⟨none, some "my_type", none, none⟩) ++ "] "
                ++ "âšª" ++ " "
                ++ pyTitle ((typeOf ⟨none, some "my_type", none,
                    none⟩).replace "_" " ")))
      ∧ pyTitle ("my_type".replace "_" " ") = "My Type" :=
  ⟨by decide, by decide, by decide,
    c8_unknown_type_default_glyph ⟨none, some "my_type", none, none⟩ 1
      (by decide) (by decide) (by decide),
    by with_unfolding_all rfl⟩

/-- C10: every renderer reads missing fields through defaults (timestamp 0,
type key_moment, description "Key moment", confidence 0), so rendering a
record equals rendering its default-filled form; a missing confidence
renders as 0% in the EDL and the confidence line is omitted in the text
and markdown entries. -/
theorem c10_defaults_totality (u : UpSotJson) (i : Nat)
    (now transcription project_name : String) :
    edlEntry i u = edlEntry i (fillDefaults u)
      ∧ txtEntry i u = txtEntry i (fillDefaults u)
      ∧ mdEntry i u = mdEntry i (fillDefaults u)
      ∧ generate_edl [u] project_name
          = generate_edl [fillDefaults u] project_name
      ∧ generate_txt now transcription [u] project_name
          = generate_txt now transcription [fillDefaults u] project_name
      ∧ generate_markdown now transcription [u] project_name
          = generate_markdown now transcription [fillDefaults u] project_name
      ∧ fillDefaults ⟨none, none, none, none⟩
          = ⟨some 0, some "key_moment", some "Key moment", some 0⟩
      ∧ (u.confidence = none →
          "* CONFIDENCE: 0%" ∈ edlEntry i u
            ∧ (txtEntry i u).length = 3 ∧ (mdEntry i u).length = 6) := by
  have hsort : ∀ v : UpSotJson, sortUpSots [v] = [v] := fun v =>
    List.mergeSort_of_sorted (List.pairwise_singleton _ _)
  refine ⟨rfl, rfl, rfl, ?_, ?_, ?_, by with_unfolding_all rfl, ?_⟩
  · simp only [generate_edl, hsort]
    with_unfolding_all rfl
  · simp only [generate_txt, hsort]
    with_unfolding_all rfl
  · simp only [generate_markdown, hsort]
    with_unfolding_all rfl
  · intro h
    have hc : confOf u = 0 := by rw [confOf, h]; rfl
    have h0 : ¬ (0 < confOf u) := by rw [hc]; exact lt_irrefl 0
    refine ⟨?_, ?_, ?_⟩
    · have hline : "* CONFIDENCE: " ++ toString (confPct (confOf u)) ++ "%"
          = "* CONFIDENCE: 0%" := by
        rw [hc]; with_unfolding_all rfl
      rw [← hline]
      simp [edlEntry]
    · simp [txtEntry, if_neg h0]
    · simp [mdEntry, if_neg h0]

/-! ## Order independence of the renderers -/

theorem sortUpSots_sorted (l : List UpSotJson) :
    List.Pairwise (fun a b => tsOf a ≤ tsOf b) (sortUpSots l) := by
  have h := @List.sorted_mergeSort UpSotJson
    (fun a b : UpSotJson => decide (tsOf a ≤ tsOf b)) ?_ ?_ l
  · exact h.imp fun hab => of_decide_eq_true hab
  · intro a b c hab hbc
    exact decide_eq_true (le_trans (of_decide_eq_true hab) (of_decide_eq_true hbc))
  · intro a b
    simp only [Bool.or_eq_true, decide_eq_true_eq]
    exact le_total _ _

theorem sortUpSots_eq_of_perm {l₁ l₂ : List UpSotJson}
    (hp : l₁.Perm l₂) (hnd : (l₁.map tsOf).Nodup) :
    sortUpSots l₁ = sortUpSots l₂ := by
  have hperm : (sortUpSots l₁).Perm (sortUpSots l₂) :=
    ((List.mergeSort_perm l₁ _).trans hp).trans (List.mergeSort_perm l₂ _).symm
  have hnd₁ : ((sortUpSots l₁).map tsOf).Nodup :=
    ((List.mergeSort_perm l₁ _).map tsOf).nodup_iff.2 hnd
  have hnd₂ : ((sortUpSots l₂).map tsOf).Nodup :=
    ((List.mergeSort_perm l₂ _).map tsOf).nodup_iff.2 ((hp.map tsOf).nodup_iff.1 hnd)
  have hne₁ : List.Pairwise (fun a b => tsOf a ≠ tsOf b) (sortUpSots l₁) := by
    rw [List.Nodup, List.pairwise_map] at hnd₁; exact hnd₁
  have hne₂ : List.Pairwise (fun a b => tsOf a ≠ tsOf b) (sortUpSots l₂) := by
    rw [List.Nodup, List.pairwise_map] at hnd₂; exact hnd₂
  haveI : IsAntisymm UpSotJson (fun a b => tsOf a < tsOf b ∨ a = b) := by
    constructor
    intro a b hab hba
    rcases hab with h | h
    · rcases hba with h' | h'
      · exact absurd h (not_lt.2 (le_of_lt h'))
      · exact h'.symm
    · exact h
  have hsorted₁ : List.Pairwise (fun a b : UpSotJson => tsOf a < tsOf b ∨ a = b)
      (sortUpSots l₁) :=
    ((sortUpSots_sorted l₁).and hne₁).imp fun h =>
      Or.inl (lt_of_le_of_ne h.1 h.2)
  have hsorted₂ : List.Pairwise (fun a b : UpSotJson => tsOf a < tsOf b ∨ a = b)
      (sortUpSots l₂) :=
    ((sortUpSots_sorted l₂).and hne₂).imp fun h =>
      Or.inl (lt_of_le_of_ne h.1 h.2)
  exact List.eq_of_perm_of_sorted hperm hsorted₁ hsorted₂

/-- C4 (amended): rendering is order-independent on input lists whose
timestamp keys are pairwise distinct — for such lists every permutation
renders identically in all three formats. (Without distinctness the
stable sort can keep equal-timestamp entries in either input order, see
the counterexample.) -/
theorem c4_render_order_independent (l₁ l₂ : List UpSotJson)
    (now transcription project_name : String)
    (hp : l₁.Perm l₂) (hnd : (l₁.map tsOf).Nodup) :
    generate_edl l₁ project_name = generate_edl l₂ project_name
      ∧ generate_txt now transcription l₁ project_name
          = generate_txt now transcription l₂ project_name
      ∧ generate_markdown now transcription l₁ project_name
          = generate_markdown now transcription l₂ project_name := by
  have hs := sortUpSots_eq_of_perm hp hnd
  have he : l₁.isEmpty = l₂.isEmpty := by
    have := hp.length_eq
    cases l₁ <;> cases l₂ <;> simp_all
  simp only [generate_edl, generate_txt, generate_markdown, hs, he]
  exact ⟨trivial, trivial, trivial⟩

theorem c4_witness :
    ([(⟨some 3, some "question", some "a", some 0.8⟩ : UpSotJson),
        ⟨some 0, some "key_moment", some "b", some 0.7⟩] : List UpSotJson).Perm
        [⟨some 0, some "key_moment", some "b", some 0.7⟩,
          ⟨some 3, some "question", some "a", some 0.8⟩]
      ∧ (([(⟨some 3, some "question", some "a", some 0.8⟩ : UpSotJson),
            ⟨some 0, some "key_moment", some "b", some 0.7⟩] : List UpSotJson).map
          tsOf).Nodup
      ∧ (generate_edl
            [⟨some 3, some "question", some "a", some 0.8⟩,
              ⟨some 0, some "key_moment", some "b", some 0.7⟩] "P"
          = generate_edl
              [⟨some 0, some "key_moment", some "b", some 0.7⟩,
                ⟨some 3, some "question", some "a", some 0.8⟩] "P"
        ∧ generate_txt "now" "T"
              [⟨some 3, some "question", some "a", some 0.8⟩,
                ⟨some 0, some "key_moment", some "b", some 0.7⟩] "P"
            = generate_txt "now" "T"
                [⟨some 0, some "key_moment", some "b", some 0.7⟩,
                  ⟨some 3, some "question", some "a", some 0.8⟩] "P"
        ∧ generate_markdown "now" "T"
              [⟨some 3, some "question", some "a", some 0.8⟩,
                ⟨some 0, some "key_moment", some "b", some 0.7⟩] "P"
            = generate_markdown "now" "T"
                [⟨some 0, some "key_moment", some "b", some 0.7⟩,
                  ⟨some 3, some "question", some "a", some 0.8⟩] "P") := by
  refine ⟨List.Perm.swap _ _ _, ?_, ?_⟩
  · have : ([(⟨some 3, some "question", some "a", some 0.8⟩ : UpSotJson),
        ⟨some 0, some "key_moment", some "b", some 0.7⟩] : List UpSotJson).map tsOf
        = [3, 0] := by with_unfolding_all rfl
    rw [this]
    refine List.Pairwise.cons ?_ (List.pairwise_singleton _ _)
    intro y hy
    rw [List.mem_singleton.1 hy]
    norm_num
  · exact c4_render_order_independent _ _ "now" "T" "P"
      (List.Perm.swap _ _ _) (by
        have : ([(⟨some 3, some "question", some "a", some 0.8⟩ : UpSotJson),
            ⟨some 0, some "key_moment", some "b", some 0.7⟩] : List UpSotJson).map tsOf
            = [3, 0] := by with_unfolding_all rfl
        rw [this]
        refine List.Pairwise.cons ?_ (List.pairwise_singleton _ _)
        intro y hy
        rw [List.mem_singleton.1 hy]
        norm_num)

/-- C4 as literally stated is false: two up-sots sharing a timestamp are
kept in input order by the stable sort, so swapping them changes every
renderer's output; shown here for the EDL renderer. -/
theorem c4_counterexample :
    ([(⟨some 0, some "question", some "alpha", some 1⟩ : UpSotJson),
        ⟨some 0, some "question", some "beta", some 1⟩] : List UpSotJson).Perm
        [⟨some 0, some "question", some "beta", some 1⟩,
          ⟨some 0, some "question", some "alpha", some 1⟩]
      ∧ generate_edl
          [⟨some 0, some "question", some "alpha", some 1⟩,
            ⟨some 0, some "question", some "beta", some 1⟩] "P"
        ≠ generate_edl
            [⟨some 0, some "question", some "beta", some 1⟩,
              ⟨some 0, some "question", some "alpha", some 1⟩] "P" := by
  constructor
  · exact List.Perm.swap _ _ _
  · have hpair : ∀ x y : UpSotJson, tsOf x ≤ tsOf y →
        List.Pairwise
          (fun a b : UpSotJson => decide (tsOf a ≤ tsOf b) = true) [x, y] := by
      intro x y hxy
      refine List.Pairwise.cons ?_ (List.pairwise_singleton _ _)
      intro z hz
      rw [List.mem_singleton.1 hz]
      exact decide_eq_true hxy
    have h1 : sortUpSots
        [(⟨some 0, some "question", some "alpha", some 1⟩ : UpSotJson),
          ⟨some 0, some "question", some "beta", some 1⟩]
        = [⟨some 0, some "question", some "alpha", some 1⟩,
            ⟨some 0, some "question", some "beta", some 1⟩] :=
      List.mergeSort_of_sorted (hpair _ _ (by with_unfolding_all rfl))
    have h2 : sortUpSots
        [(⟨some 0, some "question", some "beta", some 1⟩ : UpSotJson),
          ⟨some 0, some "question", some "alpha", some 1⟩]
        = [⟨some 0, some "question", some "beta", some 1⟩,
            ⟨some 0, some "question", some "alpha", some 1⟩] :=
      List.mergeSort_of_sorted (hpair _ _ (by with_unfolding_all rfl))
    simp only [generate_edl, h1, h2]
    intro hEq
    have hdata := congrArg String.data hEq
    revert hdata
    with_unfolding_all decide

theorem c10_witness :
    (⟨none, none, none, none⟩ : UpSotJson).confidence = none
      ∧ ("* CONFIDENCE: 0%" ∈ edlEntry 1 ⟨none, none, none, none⟩
          ∧ (txtEntry 1 ⟨none, none, none, none⟩).length = 3
          ∧ (mdEntry 1 ⟨none, none, none, none⟩).length = 6) :=
  ⟨rfl, (c10_defaults_totality ⟨none, none, none, none⟩ 1 "now" "T"
      "P").2.2.2.2.2.2.2 rfl⟩

end Retro
